import Mathlib

/-!
Verification of `generate_data.py` (iommu_info_generate).

The Python source is shallowly embedded below.  Strings are processed at the
character-list level so that every definition is executable and kernel
reducible.  Fallible code paths (Python exceptions: `IndexError` on a line
without a colon, `TypeError` on `None > 0`, `ValueError` from `strptime`)
are modelled with `Option` / `Except`.
-/

/-! ## String helpers (models of the Python string primitives used) -/

/-- Model of Python `line.replace("\t", "")`: remove every tab character. -/
def removeTabs (cs : List Char) : List Char := cs.filter (fun c => c ≠ '\t')

/-- Auxiliary splitter: split a character list at every occurrence of `sep`.
Mirrors Python `str.split(sep)` (no limit): always returns at least one part. -/
def splitCharAux (sep : Char) : List Char → List Char → List String
  | [], cur => [String.mk cur.reverse]
  | c :: cs, cur =>
    if c = sep then String.mk cur.reverse :: splitCharAux sep cs []
    else splitCharAux sep cs (c :: cur)

/-- Model of Python `s.split(sep)` for a one-character separator. -/
def splitChar (sep : Char) (s : String) : List String := splitCharAux sep s.data []

/-- Model of Python `output.split("\n")`. -/
def pySplitNL (s : String) : List String := splitChar '\n' s

/-- Model of Python `s.split(":", 1)` restricted to the part the code uses:
`some (key, value)` when the string contains a colon, `none` otherwise
(in the source, accessing `line[1]` on a colon-free line raises `IndexError`). -/
def splitFirstColon : List Char → Option (List Char × List Char)
  | [] => none
  | c :: cs =>
    if c = ':' then some ([], cs)
    else (splitFirstColon cs).map (fun kv => (c :: kv.1, kv.2))

/-- Model of `line.replace("\t", "").split(":", 1)` followed by the
`line[0]` / `line[1]` accesses: `none` models the `IndexError` on a
colon-free line. -/
def splitLineKV (line : String) : Option (String × String) :=
  (splitFirstColon (removeTabs line.data)).map
    (fun kv => (String.mk kv.1, String.mk kv.2))

/-- Model of Python `str.lower()` (ASCII; `lspci` keys are ASCII). -/
def pyLower (s : String) : String := String.mk (s.data.map Char.toLower)

/-- Model of Python `str.startswith(p)`. -/
def strStarts (s p : String) : Bool := p.data.isPrefixOf s.data

/-- Model of Python `str.endswith(p)`. -/
def strEnds (s p : String) : Bool := p.data.isSuffixOf s.data

/-- Python whitespace characters recognised by `str.strip()` (ASCII range). -/
def isPyWs (c : Char) : Bool :=
  c = ' ' ∨ c = '\t' ∨ c = '\n' ∨ c = '\r' ∨ c = '\x0b' ∨ c = '\x0c'

/-- Drop characters satisfying `p` from both ends of a character list. -/
def dropEnds (p : Char → Bool) (cs : List Char) : List Char :=
  ((cs.dropWhile p).reverse.dropWhile p).reverse

/-- Model of Python `str.strip()` (strip whitespace from both ends). -/
def pyStrip (s : String) : String := String.mk (dropEnds isPyWs s.data)

/-- Model of Python `str.strip("[]")` (strip bracket characters from both ends). -/
def pyStripBrackets (s : String) : String :=
  String.mk (dropEnds (fun c => c = '[' ∨ c = ']') s.data)

/-- Model of Python `s[-n:]` for `n ≤ len(s)`. -/
def strTakeRight (s : String) (n : Nat) : String :=
  String.mk (s.data.drop (s.data.length - n))

/-- Model of Python `s[:-n]` for `n ≤ len(s)`. -/
def strDropRight (s : String) (n : Nat) : String :=
  String.mk (s.data.take (s.data.length - n))

/-! ## Data model for the PCI topology parser -/

/-- A device field value: either a plain string or the
`{"name": ..., "vendorid": ...}` sub-record built for bracketed IDs. -/
inductive FieldVal where
  | str (s : String)
  | vend (name vendorid : String)
deriving DecidableEq, Repr

/-- A device record: an insertion-ordered string-keyed mapping, modelling the
Python `device` dict. -/
abbrev Device := List (String × FieldVal)

/-- Model of Python `d.update({k: v})` on an insertion-ordered dict: replace in
place if the key is present, append otherwise. -/
def dictUpdate (d : Device) (k : String) (v : FieldVal) : Device :=
  if d.any (fun p => p.1 == k) then
    d.map (fun p => if p.1 == k then (k, v) else p)
  else d ++ [(k, v)]

/-- Same update operation for a string-valued mapping. -/
def strUpdate (d : List (String × String)) (k v : String) : List (String × String) :=
  if d.any (fun p => p.1 == k) then
    d.map (fun p => if p.1 == k then (k, v) else p)
  else d ++ [(k, v)]

/-- The group wrapper dict `{"devices": [...], "iommugroup": ...}` of the
source (used both as the in-progress accumulator and as an element of
`structure["groups"]`).  `iommugroup = none` models Python `None`.  `extra`
holds any other key inserted by `devices.update(data)` (possible only for keys
starting with `iommugroup` but different from it). -/
structure DeviceGroup where
  iommugroup : Option String
  devices : List Device
  extra : List (String × String)
deriving DecidableEq, Repr

/-- The `structure` argument of `parse_lspci_output`: its `groups` entry plus
all its other entries, kept abstract as `rest`. -/
structure Structure (α : Type) where
  groups : List DeviceGroup
  rest : α
deriving DecidableEq, Repr

/-! ## parse_lspci_output -/

/-- Model of the compiled regex `\[[\s\w]{4}\]` applied by `re.match` to the
six-character slice `value[-6:]`: the slice is `[`, four word-or-space
characters, `]`.  (`\w` is modelled as ASCII alphanumeric or underscore, `\s`
as whitespace.) -/
def regexIdMatch (s : String) : Bool :=
  match s.data with
  | [a, b, c, d, e, f] =>
    a = '[' && f = ']' &&
      ([b, c, d, e].all (fun ch => ch.isAlphanum || ch = '_' || ch.isWhitespace))
  | _ => false

/-- Model of `key = f"dev_{key}" if key == "class" else key`. -/
def renameKey (k : String) : String := if k = "class" then "dev_class" else k

/-- One iteration of the `for line in output.split("\n")` loop for a
NON-blank line (the `if line:` branch of the source, lines 130-153).
Returns the updated group wrapper and device dict; `none` models the
`IndexError` raised on a line without a colon. -/
def processLine (line : String) (acc : DeviceGroup) (device : Device) :
    Option (DeviceGroup × Device) :=
  match splitLineKV line with
  | none => none
  | some (k0, value) =>
    let key := renameKey (pyLower k0)
    if strStarts key "iommugroup" then
      -- `devices.update(data); continue`
      if key = "iommugroup" then some ({ acc with iommugroup := some value }, device)
      else some ({ acc with extra := strUpdate acc.extra key value }, device)
    else
      let fv : FieldVal :=
        if 6 < value.length ∧ strEnds key "vendor" then
          if regexIdMatch (strTakeRight value 6) then
            FieldVal.vend (strDropRight value 7) (pyStripBrackets (strTakeRight value 6))
          else FieldVal.str value
        else FieldVal.str value
      some (acc, dictUpdate device key fv)

/-- The blank-line branch of the loop (source lines 154-179): flush the
accumulated device into the groups list.  Returns the new groups list and the
(possibly reset) accumulators.  An empty device dict is skipped without
resetting the group wrapper (`if not device: continue`). -/
def flushDevice (acc : DeviceGroup) (device : Device) (gs : List DeviceGroup) :
    List DeviceGroup × DeviceGroup × Device :=
  if device = [] then (gs, acc, device)
  else if !(gs.any (fun g => g.iommugroup == acc.iommugroup)) then
    (gs ++ [{ acc with devices := acc.devices ++ [device] }],
      ⟨none, [], []⟩, [])
  else
    (gs.map (fun g =>
        if g.iommugroup == acc.iommugroup then
          { g with devices := g.devices ++ [device] }
        else g),
      ⟨none, [], []⟩, [])

/-- The full line loop of `parse_lspci_output`, threading the group wrapper,
the device dict and `structure["groups"]`.  When the line list is exhausted
any un-flushed accumulators are discarded, exactly as in the source. -/
def parseLines : List String → DeviceGroup → Device → List DeviceGroup → Option (List DeviceGroup)
  | [], _, _, gs => some gs
  | l :: rest, acc, dev, gs =>
    if l = "" then
      let r := flushDevice acc dev gs
      parseLines rest r.2.1 r.2.2 r.1
    else
      match processLine l acc dev with
      | none => none
      | some st => parseLines rest st.1 st.2 gs

/-- Model of `parse_lspci_output(output, structure)` (source lines 122-181).
`none` models an uncaught `IndexError`. -/
def parse_lspci_output {α : Type} (output : String) (s : Structure α) :
    Option (Structure α) :=
  (parseLines (pySplitNL output) ⟨none, [], []⟩ [] s.groups).map
    (fun gs => { s with groups := gs })

/-! ## parse_hardware -/

/-- A `{"name": ..., "vendorid": ...}` vendor sub-record of the hardware dict. -/
structure VendorRec where
  name : String
  vendorid : String
deriving DecidableEq, Repr

/-- The `"board"` section of the hardware dict. -/
structure BoardRec where
  name : String
  board_vendor : VendorRec
  version : String
deriving DecidableEq, Repr

/-- The `"bios"` section of the hardware dict. -/
structure BiosRec where
  date : String
  release : String
  bios_vendor : VendorRec
  version : String
deriving DecidableEq, Repr

/-- The `"product"` section of the hardware dict. -/
structure ProductRec where
  family : String
  name : String
deriving DecidableEq, Repr

/-- The non-`groups` entries of the hardware dict built by `parse_hardware`.
`chassis` holds the value of the single `"type"` key of the `"chassis"`
section; `none` models the section having been popped. -/
structure HwFields where
  board : BoardRec
  bios : BiosRec
  chassis : Option String
  product : Option ProductRec
deriving DecidableEq, Repr

/-- The full hardware dict: the `groups` entry plus the named sections. -/
abbrev Hardware := Structure HwFields

/-- Leap year rule used by `datetime` (proleptic Gregorian calendar). -/
def isLeap (y : Nat) : Bool := (y % 4 = 0 ∧ y % 100 ≠ 0) ∨ y % 400 = 0

/-- Days in a month, as validated by `datetime.datetime`. -/
def daysInMonth (m y : Nat) : Nat :=
  if m = 2 then (if isLeap y then 29 else 28)
  else if m = 4 ∨ m = 6 ∨ m = 9 ∨ m = 11 then 30 else 31

/-- Decimal value of a non-empty all-digit character list. -/
def digitsToNat (cs : List Char) : Option Nat :=
  if cs ≠ [] ∧ cs.all Char.isDigit then
    some (cs.foldl (fun n c => n * 10 + (c.toNat - 48)) 0)
  else none

/-- Model of `datetime.datetime.strptime(data, "%m/%d/%Y")`: `%m` and `%d`
accept one or two digits (with range validation against the calendar), `%Y`
exactly four digits; the whole string must be consumed.  Returns
`(month, day, year)`; `none` models the `ValueError`. -/
def parseDateMDY (s : String) : Option (Nat × Nat × Nat) :=
  match splitChar '/' s with
  | [ms, ds, ys] =>
    if ms.data.length ≤ 2 ∧ ds.data.length ≤ 2 ∧ ys.data.length = 4 then
      match digitsToNat ms.data, digitsToNat ds.data, digitsToNat ys.data with
      | some m, some d, some y =>
        if 1 ≤ m ∧ m ≤ 12 ∧ 1 ≤ d ∧ d ≤ daysInMonth m y ∧ 1 ≤ y then
          some (m, d, y)
        else none
      | _, _, _ => none
    else none
  | _ => none

/-- Zero-pad a number to two digits (as `strftime` `%m` / `%d` do). -/
def pad2 (n : Nat) : String := if n < 10 then "0" ++ toString n else toString n

/-- Zero-pad a number to four digits (as `strftime` `%Y` does for the years
produced here; all parsed years come from four-digit input). -/
def pad4 (n : Nat) : String :=
  if n < 10 then "000" ++ toString n
  else if n < 100 then "00" ++ toString n
  else if n < 1000 then "0" ++ toString n
  else toString n

/-- Model of `date.strftime("%Y-%m-%d")`. -/
def formatYMD (y m d : Nat) : String := pad4 y ++ "-" ++ pad2 m ++ "-" ++ pad2 d

/-- Model of one field read of the `parse_hardware` loop: resolve the backing
file path (`key` itself for vendor keys, `"{section}_{key}"` otherwise), read
and strip it, and return `none` when the file is absent or its stripped
content is empty (the walrus test `if data := f.read().strip()`).
`fs` maps a file name under `/sys/devices/virtual/dmi/id/` to its content,
`none` meaning the file does not exist. -/
def readDmi (fs : String → Option String) (section_ key : String) : Option String :=
  let filepath := if strEnds key "vendor" then key else section_ ++ "_" ++ key
  match fs filepath with
  | none => none
  | some content =>
    let data := pyStrip content
    if data = "" then none else some data

/-- The `key == "date"` re-parse inside the loop: absent/empty file keeps the
default `""`; otherwise the value must parse as `%m/%d/%Y` and is re-emitted
as `%Y-%m-%d`.  `Except.error` models the uncaught `ValueError`. -/
def dateField : Option String → Except String String
  | none => Except.ok ""
  | some d =>
    match parseDateMDY d with
    | none => Except.error ("time data " ++ d ++ " does not match format %m/%d/%Y")
    | some mdy => Except.ok (formatYMD mdy.2.2 mdy.1 mdy.2.1)

/-- Model of `parse_hardware()` (source lines 68-119) over an abstract DMI
directory `fs`.  Every declared field takes the stripped file content when
present and non-empty, and its documented default otherwise; vendor reads
update only the `name` of the vendor sub-record; a laptop/portable chassis
type rewrites the board name and pops the chassis and product sections. -/
def parse_hardware (fs : String → Option String) : Except String Hardware :=
  match dateField (readDmi fs "bios" "date") with
  | Except.error e => Except.error e
  | Except.ok dateStr =>
    let ct := (readDmi fs "chassis" "type").getD ""
    let pf := (readDmi fs "product" "family").getD ""
    let pn := (readDmi fs "product" "name").getD ""
    let hw : Hardware :=
      { groups := []
        rest :=
          { board :=
              { name := (readDmi fs "board" "name").getD "__unknown__"
                board_vendor := ⟨(readDmi fs "board" "board_vendor").getD "_none_", ""⟩
                version := (readDmi fs "board" "version").getD "__unknown__" }
            bios :=
              { date := dateStr
                release := (readDmi fs "bios" "release").getD ""
                bios_vendor := ⟨(readDmi fs "bios" "bios_vendor").getD "_none_", ""⟩
                version := (readDmi fs "bios" "version").getD "__unknown__" }
            chassis := some ct
            product := some ⟨pf, pn⟩ } }
    if ct = "8" ∨ ct = "9" ∨ ct = "10" then
      Except.ok { hw with
        rest := { hw.rest with
          board := { hw.rest.board with name := pn ++ " (" ++ pf ++ ")" }
          chassis := none
          product := none } }
    else Except.ok hw

/-! ## Error handling, lookup_vendor and exit codes -/

/-- Model of `_errors(problem, file, data)` (source lines 31-47) acting on the
global `ERRORS` list.  The file system read is abstracted: `fileContent` is
the content of `filePath` when it names an existing file, `none` otherwise. -/
def errorsAdd (errs : List String) (problem : String) (filePath : Option String)
    (fileContent : Option String) (data : Option String) : List String :=
  let additional : Option String :=
    match filePath, fileContent with
    | some f, some txt => some ("cat " ++ f ++ "\n" ++ pyStrip txt)
    | _, _ =>
      match data with
      | some d => if d = "" then none else some d
      | none => none
  errs ++ problem :: (match additional with | some t => [t] | none => [])

/-- Abstraction of the `requests` response seen by `lookup_vendor`:
`json_count` is `r.json().get("count")` (`none` models a missing key, i.e.
Python `None`), `json_results` is `r.json().get("results")`, `json_detail`
is `r.json().get("detail", "")` with its default already applied. -/
structure HttpResponse where
  ok : Bool
  json_count : Option Int
  json_results : Option (List (List (String × String)))
  json_detail : String
  reason : String

/-- Result of a `lookup_vendor` call: the returned vendor dict and the state
of the global `ERRORS` list afterwards. -/
structure LookupResult where
  vendor : List (String × String)
  errors : List String
deriving DecidableEq, Repr

/-- The `vendorid` entry of a vendor dict, empty when absent. -/
def getVendorid (d : List (String × String)) : String := (d.lookup "vendorid").getD ""

/-- Model of `lookup_vendor(vendor_name, lookup_type)` (source lines 184-204).
`vendorFile` is the content of `/sys/devices/virtual/dmi/id/{lookup_type}_vendor`
when that file exists.  `none` models an uncaught exception: the `TypeError`
of `None > 0` when the JSON has no `count`, or the `TypeError`/`IndexError`
of `r.json().get("results")[0]` when `results` is missing or empty. -/
def lookup_vendor (resp : HttpResponse) (vendor_name lookup_type : String)
    (vendorFile : Option String) (errs : List String) : Option LookupResult :=
  if resp.ok then
    match resp.json_count with
    | none => none
    | some c =>
      if 0 < c then
        match resp.json_results with
        | some (v :: _) => some ⟨v, errs⟩
        | _ => none
      else
        some ⟨[], errorsAdd errs
          ("failed to retrieve " ++ lookup_type ++ " vendorid for: " ++ vendor_name)
          (some ("/sys/devices/virtual/dmi/id/" ++ lookup_type ++ "_vendor"))
          vendorFile none⟩
  else
    some ⟨[], errorsAdd errs
      ("Failed to retrieve " ++ lookup_type ++ "_vendor (" ++ vendor_name ++ "): "
        ++ resp.reason ++ ", (" ++ resp.json_detail ++ ")")
      none none none⟩

/-- Model of `_exit()` (source lines 50-65): the process exit code is 1 when
the `ERRORS` list is non-empty, 0 otherwise. -/
def exitCode (errors : List String) : Nat := if errors = [] then 0 else 1

/-- Model of the tail of `main()` (source lines 250-279): with `errs` the
`ERRORS` accumulated so far (by the two `lookup_vendor` calls), a dry run
calls `_exit()` immediately; otherwise the record is POSTed and a failed POST
records one more error before `_exit()`. -/
def mainExitCode (errs : List String) (dryRun : Bool) (postOk : Bool)
    (postReason postText : String) : Nat :=
  if dryRun then exitCode errs
  else if postOk then exitCode errs
  else exitCode (errorsAdd errs ("API request error: " ++ postReason) none none
    (some postText))

/-! ## Well-formed lspci records and the grouping invariant -/

/-- An lspci record description: its raw non-blank lines together with the
IOMMU group number and device dict its lines produce (tied together by
`wfRecord`). -/
structure PciRecord where
  lines : List String
  num : String
  dev : Device
deriving DecidableEq, Repr

/-- Run the non-blank-line branch of the loop over a list of lines from an
arbitrary accumulator state, failing on a blank line. -/
def procLinesFrom : List String → DeviceGroup × Device → Option (DeviceGroup × Device)
  | [], st => some st
  | l :: rest, st =>
    if l = "" then none
    else
      match processLine l st.1 st.2 with
      | none => none
      | some st2 => procLinesFrom rest st2

/-- Run the lines of one record from freshly reset accumulators. -/
def procRecord (lines : List String) : Option (DeviceGroup × Device) :=
  procLinesFrom lines (⟨none, [], []⟩, [])

/-- A well-formed lspci record: its lines are non-blank, each parses, exactly
the key `iommugroup` is routed to the group wrapper (with final value
`r.num`), and at least one device field is produced. -/
def wfRecord (r : PciRecord) : Prop :=
  procRecord r.lines = some (⟨some r.num, [], []⟩, r.dev) ∧ r.dev ≠ []

instance (r : PciRecord) : Decidable (wfRecord r) := by
  unfold wfRecord; infer_instance

/-- The line list of a blank-line-delimited sequence of records (each record's
lines followed by the blank terminator). -/
def flattenRecs : List PciRecord → List String
  | [] => []
  | r :: rs => r.lines ++ "" :: flattenRecs rs

/-- The matching-group update performed by the `for group in
structure["groups"]` loop of the flush branch. -/
def appendDevMatching (n : String) (d : Device) (g : DeviceGroup) : DeviceGroup :=
  if g.iommugroup == some n then { g with devices := g.devices ++ [d] } else g

/-- The effect of one record flush on the groups list: append a fresh group
when the number is new, otherwise append the device to every matching group. -/
def insertRec (gs : List DeviceGroup) (n : String) (d : Device) : List DeviceGroup :=
  if !(gs.any (fun g => g.iommugroup == some n)) then gs ++ [⟨some n, [d], []⟩]
  else gs.map (appendDevMatching n d)

/-- The structural invariant of the groups list after the records of `pre`
have been flushed into an initially empty list: group numbers are pairwise
distinct and present, each group's device list is exactly the devices of the
records carrying its number in encounter order, and the group numbers are
exactly the numbers occurring in `pre`. -/
def GroupsInv (pre : List PciRecord) (gs : List DeviceGroup) : Prop :=
  List.Pairwise (fun a b => a.iommugroup ≠ b.iommugroup) gs ∧
  (∀ g ∈ gs, ∃ n, g.iommugroup = some n) ∧
  (∀ g ∈ gs, ∀ n, g.iommugroup = some n →
    g.devices = (pre.filter (fun r => r.num == n)).map PciRecord.dev) ∧
  (∀ n, (∃ g ∈ gs, g.iommugroup = some n) ↔ (∃ r ∈ pre, r.num = n))

/-- Example record: an lspci record at slot 00:02.0 in IOMMU group 4. -/
def recEx1 : PciRecord :=
  ⟨["Slot:\t00:02.0", "IOMMUGroup:\t4"], "4", [("slot", FieldVal.str "00:02.0")]⟩

/-- Example record: an lspci record at slot 00:1f.0, also in IOMMU group 4. -/
def recEx2 : PciRecord :=
  ⟨["Slot:\t00:1f.0", "IOMMUGroup:\t4"], "4", [("slot", FieldVal.str "00:1f.0")]⟩

/-- The raw lspci text whose two records are `recEx1` and `recEx2`. -/
def lspciEx : String := "Slot:\t00:02.0\nIOMMUGroup:\t4\n\nSlot:\t00:1f.0\nIOMMUGroup:\t4\n"

/-- A lookup response with one result. -/
def respOne : HttpResponse :=
  ⟨true, some 1, some [[("name", "Intel Corporation"), ("vendorid", "8086")]], "", "OK"⟩

/-- A successful lookup response with zero results. -/
def respZero : HttpResponse := ⟨true, some 0, some [], "", "OK"⟩

/-- A failed (non-2xx) lookup response. -/
def respFail : HttpResponse := ⟨false, none, none, "not found", "Bad Gateway"⟩

lemma flushDevice_eq (n : String) (d : Device) (gs : List DeviceGroup) (hd : d ≠ []) :
    flushDevice ⟨some n, [], []⟩ d gs = (insertRec gs n d, ⟨none, [], []⟩, []) := by
  unfold flushDevice insertRec appendDevMatching
  rw [if_neg hd]
  cases hany : gs.any (fun g => g.iommugroup == some n) <;> simp [hany]

lemma parseLines_append (lines ys : List String) (st st' : DeviceGroup × Device)
    (gs : List DeviceGroup) (h : procLinesFrom lines st = some st') :
    parseLines (lines ++ ys) st.1 st.2 gs = parseLines ys st'.1 st'.2 gs := by
  induction lines generalizing st with
  | nil =>
    simp only [procLinesFrom, Option.some.injEq] at h
    subst h
    simp
  | cons l rest ih =>
    by_cases hl : l = ""
    · simp [procLinesFrom, hl] at h
    · cases hpl : processLine l st.1 st.2 with
      | none => simp [procLinesFrom, hl, hpl] at h
      | some st2 =>
        have h2 : procLinesFrom rest st2 = some st' := by
          simpa [procLinesFrom, hl, hpl] using h
        rw [List.cons_append]
        simp only [parseLines, if_neg hl, hpl]
        exact ih st2 h2

lemma parseLines_record (r : PciRecord) (hwf : wfRecord r) (ys : List String)
    (gs : List DeviceGroup) :
    parseLines (r.lines ++ "" :: ys) ⟨none, [], []⟩ [] gs =
      parseLines ys ⟨none, [], []⟩ [] (insertRec gs r.num r.dev) := by
  have h := parseLines_append r.lines ("" :: ys) (⟨none, [], []⟩, [])
    (⟨some r.num, [], []⟩, r.dev) gs hwf.1
  rw [h]
  simp only [parseLines, if_pos rfl]
  rw [flushDevice_eq r.num r.dev gs hwf.2]
  simp

lemma parseLines_records (recs : List PciRecord) (hwf : ∀ r ∈ recs, wfRecord r)
    (gs : List DeviceGroup) :
    parseLines (flattenRecs recs) ⟨none, [], []⟩ [] gs =
      some (recs.foldl (fun acc r => insertRec acc r.num r.dev) gs) := by
  induction recs generalizing gs with
  | nil => simp [flattenRecs, parseLines]
  | cons r rs ih =>
    rw [flattenRecs, parseLines_record r (hwf r (by simp)) (flattenRecs rs) gs,
      ih (fun x hx => hwf x (by simp [hx]))]
    simp

lemma groupsInv_nil : GroupsInv [] [] := by
  refine ⟨List.Pairwise.nil, by simp, by simp, by simp⟩

lemma appendDevMatching_key (n : String) (d : Device) (g : DeviceGroup) :
    (appendDevMatching n d g).iommugroup = g.iommugroup := by
  unfold appendDevMatching
  split <;> rfl

lemma groupsInv_step (pre : List PciRecord) (gs : List DeviceGroup) (r : PciRecord)
    (h : GroupsInv pre gs) : GroupsInv (pre ++ [r]) (insertRec gs r.num r.dev) := by
  obtain ⟨hpw, hsome, hdev, hiff⟩ := h
  unfold insertRec
  cases hany : gs.any (fun g => g.iommugroup == some r.num) with
  | false =>
    have hnot : ∀ g ∈ gs, g.iommugroup ≠ some r.num := by
      intro g hg hEq
      have := List.any_eq_false.mp hany g hg
      simp [hEq] at this
    simp only [Bool.not_false, if_pos]
    refine ⟨?_, ?_, ?_, ?_⟩
    · rw [List.pairwise_append]
      refine ⟨hpw, by simp, ?_⟩
      intro a ha b hb
      simp only [List.mem_singleton] at hb
      subst hb
      simpa using hnot a ha
    · intro g hg
      rcases List.mem_append.mp hg with h1 | h2
      · exact hsome g h1
      · simp only [List.mem_singleton] at h2
        subst h2
        exact ⟨r.num, rfl⟩
    · intro g hg n hn
      rcases List.mem_append.mp hg with h1 | h2
      · have hgn : g.iommugroup ≠ some r.num := hnot g h1
        have hne : (r.num == n) = false := by
          rw [beq_eq_false_iff_ne]
          intro hEq
          exact hgn (by rw [hEq]; exact hn)
        rw [List.filter_append]
        simp [hne]
        exact hdev g h1 n hn
      · simp only [List.mem_singleton] at h2
        subst h2
        simp only [DeviceGroup.mk.injEq] at hn ⊢
        have hnum : n = r.num := by
          have : some r.num = some n := hn
          exact (Option.some.injEq _ _ ▸ this).symm
        subst hnum
        have hpre : pre.filter (fun x => x.num == r.num) = [] := by
          rw [List.filter_eq_nil_iff]
          intro x hx
          intro hxEq
          have hxn : x.num = r.num := by simpa using hxEq
          obtain ⟨g, hg, hgn⟩ := (hiff r.num).mpr ⟨x, hx, hxn⟩
          exact hnot g hg hgn
        rw [List.filter_append, hpre]
        simp
    · intro n
      constructor
      · rintro ⟨g, hg, hgn⟩
        rcases List.mem_append.mp hg with h1 | h2
        · obtain ⟨x, hx, hxn⟩ := (hiff n).mp ⟨g, h1, hgn⟩
          exact ⟨x, List.mem_append_left _ hx, hxn⟩
        · simp only [List.mem_singleton] at h2
          subst h2
          have : r.num = n := by
            have : (some r.num : Option String) = some n := hgn
            simpa using this
          exact ⟨r, List.mem_append_right _ (by simp), this⟩
      · rintro ⟨x, hx, hxn⟩
        rcases List.mem_append.mp hx with h1 | h2
        · obtain ⟨g, hg, hgn⟩ := (hiff n).mpr ⟨x, h1, hxn⟩
          exact ⟨g, List.mem_append_left _ hg, hgn⟩
        · simp only [List.mem_singleton] at h2
          subst h2
          exact ⟨⟨some x.num, [x.dev], []⟩, by simp, by rw [hxn]⟩
  | true =>
    have hex : ∃ g ∈ gs, g.iommugroup = some r.num := by
      obtain ⟨g, hg, hgp⟩ := List.any_eq_true.mp hany
      exact ⟨g, hg, by simpa using hgp⟩
    simp only [Bool.not_true, if_neg (by simp : ¬(false = true))]
    refine ⟨?_, ?_, ?_, ?_⟩
    · rw [List.pairwise_map]
      exact hpw.imp (fun hab => by
        rw [appendDevMatching_key, appendDevMatching_key]; exact hab)
    · intro g' hg'
      obtain ⟨g, hg, rfl⟩ := List.mem_map.mp hg'
      rw [appendDevMatching_key]
      exact hsome g hg
    · intro g' hg' n hn
      obtain ⟨g, hg, rfl⟩ := List.mem_map.mp hg'
      rw [appendDevMatching_key] at hn
      by_cases hmatch : g.iommugroup = some r.num
      · have hnum : r.num = n := by
          rw [hmatch] at hn
          simpa using hn
        have hfg : appendDevMatching r.num r.dev g = { g with devices := g.devices ++ [r.dev] } := by
          unfold appendDevMatching
          rw [if_pos (by simpa using hmatch)]
        have hbeq : (r.num == n) = true := by simpa using hnum
        rw [hfg, List.filter_append, hdev g hg n hn]
        simp [hbeq]
      · have hfg : appendDevMatching r.num r.dev g = g := by
          unfold appendDevMatching
          rw [if_neg (by simpa using hmatch)]
        rw [hfg]
        have hne : (r.num == n) = false := by
          rw [beq_eq_false_iff_ne]
          intro hEq
          exact hmatch (by rw [hEq]; exact hn)
        rw [List.filter_append]
        simp [hne]
        exact hdev g hg n hn
    · intro n
      have hkeys : (∃ g' ∈ gs.map (appendDevMatching r.num r.dev), g'.iommugroup = some n)
          ↔ (∃ g ∈ gs, g.iommugroup = some n) := by
        constructor
        · rintro ⟨g', hg', hk⟩
          obtain ⟨g, hg, rfl⟩ := List.mem_map.mp hg'
          rw [appendDevMatching_key] at hk
          exact ⟨g, hg, hk⟩
        · rintro ⟨g, hg, hk⟩
          exact ⟨appendDevMatching r.num r.dev g, List.mem_map_of_mem _ hg,
            by rw [appendDevMatching_key]; exact hk⟩
      rw [hkeys, hiff]
      constructor
      · rintro ⟨x, hx, hxn⟩
        exact ⟨x, List.mem_append_left _ hx, hxn⟩
      · rintro ⟨x, hx, hxn⟩
        rcases List.mem_append.mp hx with h1 | h2
        · exact ⟨x, h1, hxn⟩
        · simp only [List.mem_singleton] at h2
          subst h2
          rw [← hxn]
          exact (hiff x.num).mp hex

lemma groupsInv_foldl (recs : List PciRecord) :
    ∀ pre gs, GroupsInv pre gs →
      GroupsInv (pre ++ recs) (recs.foldl (fun acc r => insertRec acc r.num r.dev) gs) := by
  induction recs with
  | nil =>
    intro pre gs h
    simpa using h
  | cons r rs ih =>
    intro pre gs h
    have h1 := groupsInv_step pre gs r h
    have h2 := ih (pre ++ [r]) _ h1
    simpa [List.append_assoc] using h2

/-! ## Helper lemmas -/

lemma splitFirstColon_some (cs : List Char) (h : ':' ∈ cs) :
    ∃ kv, splitFirstColon cs = some kv := by
  induction cs with
  | nil => simp at h
  | cons c rest ih =>
    by_cases hc : c = ':'
    · exact ⟨([], rest), by simp [splitFirstColon, hc]⟩
    · have hr : ':' ∈ rest := by
        rcases List.mem_cons.mp h with h1 | h1
        · exact absurd h1.symm hc
        · exact h1
      obtain ⟨kv, hkv⟩ := ih hr
      exact ⟨(c :: kv.1, kv.2), by simp [splitFirstColon, hc, hkv]⟩

lemma splitFirstColon_none (cs : List Char) (h : ':' ∉ cs) :
    splitFirstColon cs = none := by
  induction cs with
  | nil => rfl
  | cons c rest ih =>
    have hc : ¬(c = ':') := fun hEq => h (by rw [hEq]; exact List.mem_cons_self _ _)
    have hr : ':' ∉ rest := fun hmem => h (List.mem_cons_of_mem _ hmem)
    simp [splitFirstColon, hc, ih hr]

lemma colon_mem_removeTabs (cs : List Char) : ':' ∈ removeTabs cs ↔ ':' ∈ cs := by
  unfold removeTabs
  rw [List.mem_filter]
  simp

lemma processLine_total (l : String) (acc : DeviceGroup) (dev : Device)
    (h : ':' ∈ l.data) : ∃ st, processLine l acc dev = some st := by
  obtain ⟨kv, hkv⟩ := splitFirstColon_some (removeTabs l.data)
    ((colon_mem_removeTabs l.data).mpr h)
  have hs : splitLineKV l = some (String.mk kv.1, String.mk kv.2) := by
    unfold splitLineKV
    rw [hkv]
    rfl
  unfold processLine
  simp only [hs]
  by_cases h1 : strStarts (renameKey (pyLower (String.mk kv.1))) "iommugroup" = true
  · rw [if_pos h1]
    by_cases h2 : renameKey (pyLower (String.mk kv.1)) = "iommugroup"
    · rw [if_pos h2]; exact ⟨_, rfl⟩
    · rw [if_neg h2]; exact ⟨_, rfl⟩
  · rw [if_neg h1]; exact ⟨_, rfl⟩

lemma parseLines_total (ls : List String) (hcolon : ∀ l ∈ ls, l ≠ "" → ':' ∈ l.data) :
    ∀ acc dev gs, ∃ r, parseLines ls acc dev gs = some r := by
  induction ls with
  | nil => intro acc dev gs; exact ⟨gs, rfl⟩
  | cons l rest ih =>
    intro acc dev gs
    by_cases hl : l = ""
    · simp only [parseLines, hl, if_pos rfl]
      subst hl
      exact ih (fun x hx hne => hcolon x (List.mem_cons_of_mem _ hx) hne) _ _ _
    · obtain ⟨st, hst⟩ := processLine_total l acc dev
        (hcolon l (List.mem_cons_self _ _) hl)
      simp only [parseLines, if_neg hl, hst]
      exact ih (fun x hx hne => hcolon x (List.mem_cons_of_mem _ hx) hne) _ _ _

lemma parseLines_fails (ls : List String)
    (hbad : ∃ l ∈ ls, l ≠ "" ∧ ':' ∉ l.data) :
    ∀ acc dev gs, parseLines ls acc dev gs = none := by
  induction ls with
  | nil => simp at hbad
  | cons l rest ih =>
    intro acc dev gs
    obtain ⟨x, hx, hxne, hxcol⟩ := hbad
    rcases List.mem_cons.mp hx with h1 | h1
    · subst h1
      have hsplit : splitLineKV x = none := by
        unfold splitLineKV
        rw [splitFirstColon_none _ (fun hmem => hxcol ((colon_mem_removeTabs _).mp hmem))]
        rfl
      have hpl : processLine x acc dev = none := by
        unfold processLine
        rw [hsplit]
      simp only [parseLines, if_neg hxne, hpl]
    · by_cases hl : l = ""
      · simp only [parseLines, hl, if_pos rfl]
        exact ih ⟨x, h1, hxne, hxcol⟩ _ _ _
      · cases hst : processLine l acc dev with
        | none => simp [parseLines, hl, hst]
        | some st =>
          simp only [parseLines, if_neg hl, hst]
          exact ih ⟨x, h1, hxne, hxcol⟩ _ _ _

lemma stripBrackets_shape (b c d e : Char) (s : String)
    (hb : ¬(b = '[' ∨ b = ']')) (he : ¬(e = '[' ∨ e = ']'))
    (hs : s.data = ['[', b, c, d, e, ']']) :
    pyStripBrackets s = String.mk [b, c, d, e] := by
  unfold pyStripBrackets dropEnds
  rw [hs]
  simp [List.dropWhile_cons, hb, he]

lemma errorsAdd_shape (errs : List String) (p : String) (fp fc da : Option String) :
    ∃ extra, extra ≠ [] ∧ errorsAdd errs p fp fc da = errs ++ extra := by
  unfold errorsAdd
  refine ⟨_, ?_, rfl⟩
  exact List.cons_ne_nil _ _

/-! ## The claims -/

/-- C1: for every lspci-format input text (a blank-line-delimited sequence of
well-formed records) parsed into a structure with an empty groups list, all
device records carrying the same IOMMUGroup number land in exactly one entry
of the output groups list, in original encounter order, and the groups list
contains exactly one group per distinct iommugroup value: group numbers are
pairwise distinct, every group carries a number, each group's device list is
exactly the device dicts of the records with its number in input order, and
the group numbers are exactly the numbers occurring in the input. -/
theorem claim_C1 {α : Type} (output : String) (recs : List PciRecord) (s : Structure α)
    (hsplit : pySplitNL output = flattenRecs recs)
    (hwf : ∀ r ∈ recs, wfRecord r)
    (hempty : s.groups = []) :
    ∃ res, parse_lspci_output output s = some res ∧
      List.Pairwise (fun a b => a.iommugroup ≠ b.iommugroup) res.groups ∧
      (∀ g ∈ res.groups, ∃ n, g.iommugroup = some n) ∧
      (∀ g ∈ res.groups, ∀ n, g.iommugroup = some n →
        g.devices = (recs.filter (fun r => r.num == n)).map PciRecord.dev) ∧
      (∀ n, (∃ g ∈ res.groups, g.iommugroup = some n) ↔ (∃ r ∈ recs, r.num = n)) := by
  have hinv := groupsInv_foldl recs [] [] groupsInv_nil
  rw [List.nil_append] at hinv
  refine ⟨{ s with groups := recs.foldl (fun acc r => insertRec acc r.num r.dev) [] },
    ?_, hinv.1, hinv.2.1, hinv.2.2.1, hinv.2.2.2⟩
  unfold parse_lspci_output
  rw [hsplit, hempty, parseLines_records recs hwf []]
  rfl

/-- Witness for C1 at the spec's end-to-end example: two records with
distinct slots, both carrying IOMMUGroup 4, parsed into an empty structure. -/
theorem claim_C1_witness :
    (pySplitNL lspciEx = flattenRecs [recEx1, recEx2]) ∧
    (∀ r ∈ [recEx1, recEx2], wfRecord r) ∧
    (∃ res, parse_lspci_output lspciEx (⟨[], ()⟩ : Structure Unit) = some res ∧
      List.Pairwise (fun a b => a.iommugroup ≠ b.iommugroup) res.groups ∧
      (∀ g ∈ res.groups, ∃ n, g.iommugroup = some n) ∧
      (∀ g ∈ res.groups, ∀ n, g.iommugroup = some n →
        g.devices = (([recEx1, recEx2]).filter (fun r => r.num == n)).map PciRecord.dev) ∧
      (∀ n, (∃ g ∈ res.groups, g.iommugroup = some n) ↔ (∃ r ∈ [recEx1, recEx2], r.num = n))) :=
  ⟨by decide, by decide, claim_C1 lspciEx [recEx1, recEx2] ⟨[], ()⟩ (by decide) (by decide) rfl⟩

/-- C2 (refuting evaluation): parsing lspci text into a structure whose
groups list already contains the output of a prior parse of the same text
DOES duplicate devices within the group: the existing-group branch appends
the freshly parsed device to the matching group unconditionally, so the
single device of group 4 appears twice after the second parse. -/
theorem claim_C2_bug :
    parse_lspci_output "Slot:\t00:02.0\nIOMMUGroup:\t4\n" (⟨[], ()⟩ : Structure Unit) =
      some ⟨[⟨some "4", [[("slot", FieldVal.str "00:02.0")]], []⟩], ()⟩ ∧
    parse_lspci_output "Slot:\t00:02.0\nIOMMUGroup:\t4\n"
        (⟨[⟨some "4", [[("slot", FieldVal.str "00:02.0")]], []⟩], ()⟩ : Structure Unit) =
      some ⟨[⟨some "4",
        [[("slot", FieldVal.str "00:02.0")], [("slot", FieldVal.str "00:02.0")]], []⟩], ()⟩ :=
  ⟨by decide, by decide⟩

/-- C3: on a line routed to the device dict (key not starting with
`iommugroup`), (1) if the key ends in `vendor`, the value is longer than six
characters, its trailing six characters are `[`, four alphanumeric-or-space
characters, `]`, and the character before the bracket is a space, the field
becomes the sub-record with name the value minus the bracketed suffix and
the preceding space (its last seven characters) and vendorid the four
bracketed characters; (2) a value of six or fewer characters is never split;
(3) a key not ending in `vendor` keeps its scalar string value. -/
theorem claim_C3 (line k0 value : String) (acc : DeviceGroup) (dev : Device)
    (hsplit : splitLineKV line = some (k0, value))
    (hni : strStarts (renameKey (pyLower k0)) "iommugroup" = false) :
    ((strEnds (renameKey (pyLower k0)) "vendor" = true →
      6 < value.length →
      ∀ b c d e : Char, (strTakeRight value 6).data = ['[', b, c, d, e, ']'] →
        (∀ ch ∈ [b, c, d, e], ch.isAlphanum = true ∨ ch = ' ') →
        strTakeRight (strDropRight value 6) 1 = " " →
        processLine line acc dev =
          some (acc, dictUpdate dev (renameKey (pyLower k0))
            (FieldVal.vend (strDropRight value 7) (String.mk [b, c, d, e])))) ∧
    (value.length ≤ 6 →
      processLine line acc dev =
        some (acc, dictUpdate dev (renameKey (pyLower k0)) (FieldVal.str value))) ∧
    (strEnds (renameKey (pyLower k0)) "vendor" = false →
      processLine line acc dev =
        some (acc, dictUpdate dev (renameKey (pyLower k0)) (FieldVal.str value)))) := by
  refine ⟨?_, ?_, ?_⟩
  · intro hvend hlen b c d e hshape halnum _
    have hnotbr : ∀ ch : Char, ch.isAlphanum = true ∨ ch = ' ' → ¬(ch = '[' ∨ ch = ']') := by
      intro ch h h2
      rcases h2 with h2 | h2 <;> subst h2 <;> rcases h with h | h <;> simp_all
    have hregex : regexIdMatch (strTakeRight value 6) = true := by
      unfold regexIdMatch
      rw [hshape]
      have hb := halnum b (by simp)
      have hc := halnum c (by simp)
      have hd2 := halnum d (by simp)
      have he2 := halnum e (by simp)
      have hws : ∀ ch : Char, ch.isAlphanum = true ∨ ch = ' ' →
          (ch.isAlphanum || ch = '_' || ch.isWhitespace) = true := by
        intro ch h
        rcases h with h | h
        · simp [h]
        · subst h; decide
      simp [hws b hb, hws c hc, hws d hd2, hws e he2]
    have hstrip : pyStripBrackets (strTakeRight value 6) = String.mk [b, c, d, e] :=
      stripBrackets_shape b c d e _ (hnotbr b (halnum b (by simp)))
        (hnotbr e (halnum e (by simp))) hshape
    unfold processLine
    rw [hsplit]
    simp only [hni, Bool.false_eq_true, if_false]
    rw [if_pos ⟨hlen, hvend⟩, if_pos hregex, hstrip]
  · intro hle
    unfold processLine
    rw [hsplit]
    simp only [hni, Bool.false_eq_true, if_false]
    rw [if_neg (fun h => absurd h.1 (Nat.not_lt.mpr hle))]
  · intro hvendF
    unfold processLine
    rw [hsplit]
    simp only [hni, Bool.false_eq_true, if_false]
    rw [if_neg (fun h => by rw [hvendF] at h; exact Bool.false_ne_true h.2)]

/-- Witness for C3 at the spec's example: the `SVendor` field value
`Intel Corporation [8086]` becomes the name/vendorid sub-record. -/
theorem claim_C3_witness :
    (splitLineKV "SVendor:\tIntel Corporation [8086]" =
      some ("SVendor", "Intel Corporation [8086]")) ∧
    processLine "SVendor:\tIntel Corporation [8086]" ⟨none, [], []⟩ [] =
      some (⟨none, [], []⟩, [("svendor", FieldVal.vend "Intel Corporation" "8086")]) := by
  refine ⟨by decide, ?_⟩
  have h := (claim_C3 "SVendor:\tIntel Corporation [8086]" "SVendor" "Intel Corporation [8086]"
    ⟨none, [], []⟩ [] (by decide) (by decide)).1 (by decide) (by decide)
    '8' '0' '8' '6' (by decide) (by decide) (by decide)
  simpa using h

/-- C4 (refuting evaluation): the `Slot:` key is NOT merged into the
enclosing group wrapper; parsing a record with a `Slot:` line puts the
`slot` key into the device record's own field mapping, and the group
wrapper's extra key set stays empty. -/
theorem claim_C4_counterexample :
    (parse_lspci_output "Slot:\t00:02.0\nIOMMUGroup:\t4\n" (⟨[], ()⟩ : Structure Unit)).map
        (fun res => res.groups.map (fun g =>
          (g.devices.map (fun d => d.map Prod.fst), g.extra.map Prod.fst))) =
      some [([["slot"]], [])] := by decide

/-- C4 (amended): only the `IOMMUGroup:` key is merged into the enclosing
group wrapper; the `Slot:` key is stored in the device record's own field
mapping like any other ordinary key. -/
theorem claim_C4_amended (line k0 value : String) (acc : DeviceGroup) (dev : Device)
    (hsplit : splitLineKV line = some (k0, value)) :
    (renameKey (pyLower k0) = "slot" →
      processLine line acc dev = some (acc, dictUpdate dev "slot" (FieldVal.str value))) ∧
    (renameKey (pyLower k0) = "iommugroup" →
      processLine line acc dev = some ({ acc with iommugroup := some value }, dev)) := by
  constructor
  · intro hk
    unfold processLine
    rw [hsplit]
    simp only [hk]
    rw [if_neg (by decide : ¬(strStarts "slot" "iommugroup" = true))]
    rw [if_neg (fun h => by
      exact Bool.false_ne_true ((by decide : strEnds "slot" "vendor" = false) ▸ h.2))]
  · intro hk
    unfold processLine
    rw [hsplit]
    simp only [hk]
    rw [if_pos (by decide : strStarts "iommugroup" "iommugroup" = true)]
    simp

/-- Witness for the amended C4 on the two example lines. -/
theorem claim_C4_amended_witness :
    (splitLineKV "Slot:\t00:02.0" = some ("Slot", "00:02.0")) ∧
    (splitLineKV "IOMMUGroup:\t4" = some ("IOMMUGroup", "4")) ∧
    processLine "Slot:\t00:02.0" ⟨none, [], []⟩ [] =
      some (⟨none, [], []⟩, [("slot", FieldVal.str "00:02.0")]) ∧
    processLine "IOMMUGroup:\t4" ⟨none, [], []⟩ [] =
      some (⟨some "4", [], []⟩, []) := by
  refine ⟨by decide, by decide, ?_, ?_⟩
  · have h := (claim_C4_amended "Slot:\t00:02.0" "Slot" "00:02.0" ⟨none, [], []⟩ []
      (by decide)).1 (by decide)
    simpa using h
  · have h := (claim_C4_amended "IOMMUGroup:\t4" "IOMMUGroup" "4" ⟨none, [], []⟩ []
      (by decide)).2 (by decide)
    simpa using h

/-- C5 (refuting evaluation): a DMI snapshot whose chassis type is `8`
(a portable form factor) produces an output with NO chassis and NO product
section (both popped), and a board name that is neither file content nor a
documented default placeholder, so the output does not contain every
declared section and field key. -/
theorem claim_C5_counterexample :
    (parse_hardware (fun p => if p = "chassis_type" then some "8" else none)).map
        (fun hw => (hw.rest.chassis, hw.rest.product, hw.rest.board.name)) =
      Except.ok (none, none, " ()") := rfl

/-- C5 (amended): for every DMI snapshot on which `parse_hardware` succeeds
and whose resolved chassis type is not one of the portable form factors
`8`, `9`, `10`, the output contains every declared section and field key,
each holding the stripped backing-file content (the date field its
normalized form) or the documented default placeholder (`__unknown__`,
empty string, `_none_`) when the file is absent or empty. -/
theorem claim_C5_amended (fs : String → Option String) (hw : Hardware)
    (hok : parse_hardware fs = Except.ok hw)
    (hct : ¬((readDmi fs "chassis" "type").getD "" = "8" ∨
      (readDmi fs "chassis" "type").getD "" = "9" ∨
      (readDmi fs "chassis" "type").getD "" = "10")) :
    hw.rest.board.name = (readDmi fs "board" "name").getD "__unknown__" ∧
    hw.rest.board.board_vendor = ⟨(readDmi fs "board" "board_vendor").getD "_none_", ""⟩ ∧
    hw.rest.board.version = (readDmi fs "board" "version").getD "__unknown__" ∧
    (readDmi fs "bios" "date" = none → hw.rest.bios.date = "") ∧
    (∀ d, readDmi fs "bios" "date" = some d →
      ∃ m dd y, parseDateMDY d = some (m, dd, y) ∧ hw.rest.bios.date = formatYMD y m dd) ∧
    hw.rest.bios.release = (readDmi fs "bios" "release").getD "" ∧
    hw.rest.bios.bios_vendor = ⟨(readDmi fs "bios" "bios_vendor").getD "_none_", ""⟩ ∧
    hw.rest.bios.version = (readDmi fs "bios" "version").getD "__unknown__" ∧
    hw.rest.chassis = some ((readDmi fs "chassis" "type").getD "") ∧
    hw.rest.product = some ⟨(readDmi fs "product" "family").getD "",
      (readDmi fs "product" "name").getD ""⟩ ∧
    hw.groups = [] := by
  unfold parse_hardware at hok
  cases hd : readDmi fs "bios" "date" with
  | none =>
    rw [hd] at hok
    simp only [dateField] at hok
    rw [if_neg hct] at hok
    injection hok with hok
    subst hok
    refine ⟨rfl, rfl, rfl, fun _ => rfl, ?_, rfl, rfl, rfl, rfl, rfl, rfl⟩
    intro d hdEq
    exact Option.noConfusion hdEq
  | some d =>
    rw [hd] at hok
    cases hp : parseDateMDY d with
    | none =>
      simp only [dateField, hp] at hok
      cases hok
    | some mdy =>
      obtain ⟨m, dd, y⟩ := mdy
      simp only [dateField, hp] at hok
      rw [if_neg hct] at hok
      injection hok with hok
      subst hok
      refine ⟨rfl, rfl, rfl, ?_, ?_, rfl, rfl, rfl, rfl, rfl, rfl⟩
      · intro hdEq
        exact Option.noConfusion hdEq
      · intro d2 hdEq
        injection hdEq with hdEq
        subst hdEq
        exact ⟨m, dd, y, hp, rfl⟩

/-- Witness for the amended C5 on the empty DMI directory: every field takes
its default and the chassis section is present. -/
theorem claim_C5_amended_witness :
    (parse_hardware (fun _ => none) = Except.ok
      ⟨[], ⟨⟨"__unknown__", ⟨"_none_", ""⟩, "__unknown__"⟩,
        ⟨"", "", ⟨"_none_", ""⟩, "__unknown__"⟩, some "", some ⟨"", ""⟩⟩⟩) ∧
    (⟨[], ⟨⟨"__unknown__", ⟨"_none_", ""⟩, "__unknown__"⟩,
        ⟨"", "", ⟨"_none_", ""⟩, "__unknown__"⟩, some "", some ⟨"", ""⟩⟩⟩ : Hardware).rest.chassis =
      some ((readDmi (fun _ => none) "chassis" "type").getD "") := by
  refine ⟨rfl, ?_⟩
  exact (claim_C5_amended (fun _ => none) _ rfl (by decide)).2.2.2.2.2.2.2.2.1

/-- C6: when the `bios_date` file holds a non-empty value, a value accepted
by the `%m/%d/%Y` parse is re-emitted as `%Y-%m-%d` in the output's bios
date (so `01/15/2023` yields `2023-01-15`, see the witness), and a value the
parse rejects makes the whole run fail with a parse error surfaced to the
caller. -/
theorem claim_C6 (fs : String → Option String) (d : String)
    (hd : readDmi fs "bios" "date" = some d) :
    (∀ m dd y, parseDateMDY d = some (m, dd, y) →
      ∃ hw, parse_hardware fs = Except.ok hw ∧ hw.rest.bios.date = formatYMD y m dd) ∧
    (parseDateMDY d = none → ∃ e, parse_hardware fs = Except.error e) := by
  constructor
  · intro m dd y hp
    unfold parse_hardware
    rw [hd]
    simp only [dateField, hp]
    by_cases hc : ((readDmi fs "chassis" "type").getD "" = "8" ∨
        (readDmi fs "chassis" "type").getD "" = "9" ∨
        (readDmi fs "chassis" "type").getD "" = "10")
    · rw [if_pos hc]
      exact ⟨_, rfl, rfl⟩
    · rw [if_neg hc]
      exact ⟨_, rfl, rfl⟩
  · intro hp
    unfold parse_hardware
    rw [hd]
    simp only [dateField, hp]
    exact ⟨_, rfl⟩

/-- Witness for C6 at the spec's example date `01/15/2023`, which becomes
`2023-01-15`. -/
theorem claim_C6_witness :
    (readDmi (fun p => if p = "bios_date" then some "01/15/2023" else none) "bios" "date" =
      some "01/15/2023") ∧
    (parseDateMDY "01/15/2023" = some (1, 15, 2023)) ∧
    (∃ hw, parse_hardware (fun p => if p = "bios_date" then some "01/15/2023" else none) =
      Except.ok hw ∧ hw.rest.bios.date = "2023-01-15") := by
  refine ⟨by decide, by decide, ?_⟩
  obtain ⟨hw, h1, h2⟩ :=
    (claim_C6 (fun p => if p = "bios_date" then some "01/15/2023" else none) "01/15/2023"
      (by decide)).1 1 15 2023 (by decide)
  exact ⟨hw, h1, by rw [h2]; decide⟩

/-- C7: (1) when the catalog responds OK with a positive count and a
non-empty result list, `lookup_vendor` returns the first result unchanged
and records no error; (2) on an OK response with zero matches and (3) on a
failed HTTP request, it returns (does not crash) with an empty vendor dict
(hence an empty vendorid) and appends a recoverable error to the error
list. -/
theorem claim_C7 (resp : HttpResponse) (vn lt : String) (vf : Option String)
    (errs : List String) :
    (∀ c v rest, resp.ok = true → resp.json_count = some c → 0 < c →
      resp.json_results = some (v :: rest) →
      lookup_vendor resp vn lt vf errs = some ⟨v, errs⟩) ∧
    (resp.ok = true → resp.json_count = some 0 →
      ∃ res, lookup_vendor resp vn lt vf errs = some res ∧ res.vendor = [] ∧
        getVendorid res.vendor = "" ∧ ∃ extra, extra ≠ [] ∧ res.errors = errs ++ extra) ∧
    (resp.ok = false →
      ∃ res, lookup_vendor resp vn lt vf errs = some res ∧ res.vendor = [] ∧
        getVendorid res.vendor = "" ∧ ∃ extra, extra ≠ [] ∧ res.errors = errs ++ extra) := by
  refine ⟨?_, ?_, ?_⟩
  · intro c v rest hok hcount hc hres
    unfold lookup_vendor
    rw [hok, if_pos rfl]
    simp only [hcount, hres]
    rw [if_pos hc]
  · intro hok hcount
    unfold lookup_vendor
    rw [hok, if_pos rfl]
    simp only [hcount]
    rw [if_neg (lt_irrefl 0)]
    obtain ⟨extra, hne, hsh⟩ := errorsAdd_shape errs
      ("failed to retrieve " ++ lt ++ " vendorid for: " ++ vn)
      (some ("/sys/devices/virtual/dmi/id/" ++ lt ++ "_vendor")) vf none
    exact ⟨_, rfl, rfl, rfl, extra, hne, hsh⟩
  · intro hok
    unfold lookup_vendor
    rw [hok]
    simp only [Bool.false_eq_true, if_false]
    obtain ⟨extra, hne, hsh⟩ := errorsAdd_shape errs
      ("Failed to retrieve " ++ lt ++ "_vendor (" ++ vn ++ "): " ++ resp.reason ++ ", ("
        ++ resp.json_detail ++ ")") none none none
    exact ⟨_, rfl, rfl, rfl, extra, hne, hsh⟩

/-- Witness for C7 on the three fixture responses: one match, zero matches,
and an HTTP failure. -/
theorem claim_C7_witness :
    (lookup_vendor respOne "Intel Corporation" "board" none [] =
      some ⟨[("name", "Intel Corporation"), ("vendorid", "8086")], []⟩) ∧
    (∃ res, lookup_vendor respZero "NoSuchVendor" "board" none [] = some res ∧
      res.vendor = [] ∧ getVendorid res.vendor = "" ∧
      ∃ extra, extra ≠ [] ∧ res.errors = [] ++ extra) ∧
    (∃ res, lookup_vendor respFail "SomeVendor" "bios" none [] = some res ∧
      res.vendor = [] ∧ getVendorid res.vendor = "" ∧
      ∃ extra, extra ≠ [] ∧ res.errors = [] ++ extra) :=
  ⟨(claim_C7 respOne "Intel Corporation" "board" none []).1 1
      [("name", "Intel Corporation"), ("vendorid", "8086")] [] rfl rfl (by decide) rfl,
    (claim_C7 respZero "NoSuchVendor" "board" none []).2.1 rfl rfl,
    (claim_C7 respFail "SomeVendor" "bios" none []).2.2 rfl⟩

/-- C8 (refuting evaluation): a dry run that completes after a zero-result
vendor lookup has a recorded error and exits with code 1, so completing a
dry run does not by itself guarantee exit code 0. -/
theorem claim_C8_counterexample :
    lookup_vendor respZero "Foo" "board" none [] =
      some ⟨[], ["failed to retrieve board vendorid for: Foo"]⟩ ∧
    mainExitCode ["failed to retrieve board vendorid for: Foo"] true true "" "" = 1 :=
  ⟨rfl, rfl⟩

/-- C8 (amended): the process exits non-zero exactly when a reportable error
was recorded: code 1 whenever the error list is non-empty (on dry runs and
uploads alike, including the error recorded by a failed POST), and code 0 on
a dry-run completion or a successful upload with no recorded error. -/
theorem claim_C8_amended (errs : List String) (dryRun postOk : Bool)
    (reason text : String) :
    (errs ≠ [] → mainExitCode errs dryRun postOk reason text = 1) ∧
    (errs = [] → dryRun = true → mainExitCode errs dryRun postOk reason text = 0) ∧
    (errs = [] → dryRun = false → postOk = true →
      mainExitCode errs dryRun postOk reason text = 0) ∧
    (errs = [] → dryRun = false → postOk = false →
      mainExitCode errs dryRun postOk reason text = 1) := by
  have hAdd : errorsAdd errs ("API request error: " ++ reason) none none (some text) ≠ [] := by
    obtain ⟨extra, hex, hsh⟩ := errorsAdd_shape errs ("API request error: " ++ reason)
      none none (some text)
    rw [hsh]
    intro hc
    exact hex (List.append_eq_nil.mp hc).2
  refine ⟨?_, ?_, ?_, ?_⟩
  · intro hne
    cases dryRun <;> cases postOk <;> simp [mainExitCode, exitCode, hne, hAdd]
  · intro he hd
    subst he; subst hd
    rfl
  · intro he hd hp
    subst he; subst hd; subst hp
    rfl
  · intro he hd hp
    subst he; subst hd; subst hp
    simp [mainExitCode, exitCode, hAdd]

/-- Witness for the amended C8: an error recorded before a dry run exits 1;
a clean dry run and a clean successful upload exit 0; a clean run whose POST
fails exits 1. -/
theorem claim_C8_amended_witness :
    mainExitCode ["some error"] true true "" "" = 1 ∧
    mainExitCode [] true true "" "" = 0 ∧
    mainExitCode [] false true "" "" = 0 ∧
    mainExitCode [] false false "Bad Gateway" "detail" = 1 :=
  ⟨(claim_C8_amended ["some error"] true true "" "").1 (by simp),
    (claim_C8_amended [] true true "" "").2.1 rfl rfl,
    (claim_C8_amended [] false true "" "").2.2.1 rfl rfl rfl,
    (claim_C8_amended [] false false "Bad Gateway" "detail").2.2.2 rfl rfl rfl⟩

/-- C9: `parse_lspci_output` only touches the `groups` entry of its
structure argument: whenever it returns a structure, every other entry
(modelled by the `rest` component, of arbitrary type) is unchanged. -/
theorem claim_C9 {α : Type} (output : String) (s : Structure α) (res : Structure α)
    (h : parse_lspci_output output s = some res) : res.rest = s.rest := by
  unfold parse_lspci_output at h
  obtain ⟨gs, _, hres⟩ := Option.map_eq_some'.mp h
  rw [← hres]

/-- Witness for C9 on a concrete parse with non-trivial other entries. -/
theorem claim_C9_witness :
    (parse_lspci_output "Slot:\t00:02.0\nIOMMUGroup:\t4\n"
        (⟨[], (3, "other-keys")⟩ : Structure (Nat × String)) =
      some ⟨[⟨some "4", [[("slot", FieldVal.str "00:02.0")]], []⟩], (3, "other-keys")⟩) ∧
    (⟨[⟨some "4", [[("slot", FieldVal.str "00:02.0")]], []⟩], (3, "other-keys")⟩ :
        Structure (Nat × String)).rest = (3, "other-keys") :=
  ⟨by decide, claim_C9 "Slot:\t00:02.0\nIOMMUGroup:\t4\n" ⟨[], (3, "other-keys")⟩ _ (by decide)⟩

/-- C10: `parse_lspci_output` is total exactly under the precondition that
every non-blank input line contains a colon separator: under that
precondition the `line[1]` access is unreachable and the parse returns a
structure, while any non-blank line without a colon makes the parse fail. -/
theorem claim_C10 {α : Type} (output : String) (s : Structure α) :
    ((∀ l ∈ pySplitNL output, l ≠ "" → ':' ∈ l.data) →
      ∃ res, parse_lspci_output output s = some res) ∧
    ((∃ l ∈ pySplitNL output, l ≠ "" ∧ ':' ∉ l.data) →
      parse_lspci_output output s = none) := by
  constructor
  · intro h
    obtain ⟨gs, hgs⟩ := parseLines_total (pySplitNL output) h ⟨none, [], []⟩ [] s.groups
    exact ⟨{ s with groups := gs }, by unfold parse_lspci_output; rw [hgs]; rfl⟩
  · intro h
    unfold parse_lspci_output
    rw [parseLines_fails (pySplitNL output) h ⟨none, [], []⟩ [] s.groups]
    rfl

/-- Witness for C10: a colon-separated input parses; the same input with the
first line's colon replaced by a space fails. -/
theorem claim_C10_witness :
    (∃ res, parse_lspci_output "Slot:\t00:02.0\nIOMMUGroup:\t4\n"
      (⟨[], ()⟩ : Structure Unit) = some res) ∧
    parse_lspci_output "Slot 00.02.0\nIOMMUGroup:\t4\n" (⟨[], ()⟩ : Structure Unit) = none :=
  ⟨(claim_C10 "Slot:\t00:02.0\nIOMMUGroup:\t4\n" ⟨[], ()⟩).1 (by decide),
    (claim_C10 "Slot 00.02.0\nIOMMUGroup:\t4\n" ⟨[], ()⟩).2 (by decide)⟩
